import Mathlib

set_option linter.unusedVariables false

/-
Verification of the birthday K-Pop / movie dashboard (src/streamlit_app.py).

The embedding models the two finder functions, the year sampling, the
Presenter post-processing and the memoization policy.  External effects are
injected as oracles:

* `fetch : Int → Except Unit (List AlbumRecord)` models one
  `sp_client.search` call for a given year (an `Except.error` value models
  any exception raised by the client);
* `fetch : Int → Except Unit (Option (List MovieRecord))` models one
  `requests.get` + `raise_for_status` + `json()` round trip for the movie
  discovery endpoint (`Except.error` models a `requests.exceptions.RequestException`,
  the `Option` models `data.get("results")`);
* `rand : Nat → Nat` models the stream of draws used by `random.sample`.

Machine integers are modelled as `Int`/`Nat` (Python integers are unbounded);
Python's float `vote_average` is modelled as `ℚ`, which agrees with float
ordering on the catalogue values the claims are about.
-/

/-- An album record as consumed from the Spotify search response
(`results['albums']['items']`), restricted to the fields the program reads. -/
structure AlbumRecord where
  id : String
  name : String
  artists : List String
  release_date : String
  release_date_precision : String
  images : List String
  external_url : String
deriving Repr, DecidableEq

/-- A movie record as consumed from the TMDb discovery response
(`data["results"]`), restricted to the fields the program reads.
`vote_average` is optional because the code reads it with
`movie.get('vote_average', 0)`. -/
structure MovieRecord where
  id : Int
  title : String
  release_date : String
  vote_average : Option ℚ
  poster_path : Option String
deriving Repr, DecidableEq

/-- Numeric value of a list of decimal digit characters. -/
def digitsToNat (cs : List Char) : Nat :=
  cs.foldl (fun n c => 10 * n + (c.toNat - 48)) 0

/-- Split a character list on the character `-`
(the separators of a `YYYY-MM-DD` date). -/
def splitOnDash : List Char → List (List Char)
  | [] => [[]]
  | c :: cs =>
    if c = '-' then [] :: splitOnDash cs
    else
      match splitOnDash cs with
      | [] => [[c]]
      | g :: gs => (c :: g) :: gs

/-- Gregorian leap-year test, as used by `datetime`. -/
def isLeapYear (y : Nat) : Bool :=
  (y % 4 = 0 && y % 100 ≠ 0) || y % 400 = 0

/-- Number of days of month `m` of year `y`, as validated by `datetime`. -/
def daysInMonth (y m : Nat) : Nat :=
  if m = 2 then (if isLeapYear y then 29 else 28)
  else if m = 4 ∨ m = 6 ∨ m = 9 ∨ m = 11 then 30
  else 31

/-- `datetime.strptime(s, '%Y-%m-%d')`: a four-digit year, a one- or
two-digit month in `1..12`, a one- or two-digit day valid for that month,
separated by `-`.  `none` models the `ValueError` raised on any other
input. -/
def parseYMD (s : String) : Option (Nat × Nat × Nat) :=
  match splitOnDash s.data with
  | [ys, ms, ds] =>
    if ys.all Char.isDigit ∧ ms.all Char.isDigit ∧ ds.all Char.isDigit
        ∧ ys.length = 4 ∧ (ms.length = 1 ∨ ms.length = 2)
        ∧ (ds.length = 1 ∨ ds.length = 2) then
      let y := digitsToNat ys
      let m := digitsToNat ms
      let d := digitsToNat ds
      if 1 ≤ m ∧ m ≤ 12 ∧ 1 ≤ d ∧ d ≤ daysInMonth y m then
        some (y, m, d)
      else none
    else none
  | _ => none

/-- Python's `range(start, stop, -1)`, as the explicit list
`[start, start-1, ..., stop+1]` (empty when `start ≤ stop`). -/
def pyRangeDown (start stop : Int) : List Int :=
  (List.range (start - stop).toNat).map (fun (i : Nat) => start - (i : Int))

/-- `years_to_search = range(current_year - 1, 2000, -1)`
(line 43 of `streamlit_app.py`). -/
def years_to_search (current_year : Int) : List Int :=
  pyRangeDown (current_year - 1) 2000

/-- Selection sampling: draw `k` elements without replacement, the draw at
step `i` being position `rand i % size` of the remaining population.  This
models how `random.sample` returns `k` distinct positions of the
population. -/
def sampleAux (rand : Nat → Nat) : Nat → Nat → List Int → List Int
  | _, 0, _ => []
  | i, k + 1, pop =>
    if hpop : pop.length = 0 then []
    else
      let j := rand i % pop.length
      pop.getD j 0 :: sampleAux rand (i + 1) k (pop.eraseIdx j)

/-- `random.sample(pop, k)` for `k ≤ pop.length`; the program always calls
it with `k = min(len(pop), 10)`, which the `min` here reproduces. -/
def randomSample (rand : Nat → Nat) (pop : List Int) (k : Nat) : List Int :=
  sampleAux rand 0 (min pop.length k) pop

/-- The inner `for album in results['albums']['items']` loop of
`get_spotify_releases` (lines 52-58): keep an album iff its
`release_date_precision` is `"day"` and its parsed release date has the
queried month and day.  The `Bool` component is `false` when
`datetime.strptime` raised on some album, which aborts the remaining albums
of the year; the list component holds the albums appended before that
point. -/
def processAlbums (month day : Nat) : List AlbumRecord → List AlbumRecord × Bool
  | [] => ([], true)
  | a :: rest =>
    if a.release_date_precision = "day" then
      match parseYMD a.release_date with
      | none => ([], false)
      | some (_, m, d) =>
        let p := processAlbums month day rest
        if m = month ∧ d = day then (a :: p.1, p.2) else p
    else processAlbums month day rest

/-- The `for year in random.sample(...)` loop of `get_spotify_releases`
(lines 46-64).  Returns the accumulated albums and the trace of years whose
query was issued.  A year whose fetch fails, or whose album loop raised, is
skipped (`except Exception: continue`); the `len(albums_found) > 5` break
check runs only when the year finished without an exception. -/
def spotifyLoop (month day : Nat) (fetch : Int → Except Unit (List AlbumRecord)) :
    List Int → List AlbumRecord → List AlbumRecord × List Int
  | [], acc => (acc, [])
  | y :: ys, acc =>
    match fetch y with
    | Except.error _ =>
      let r := spotifyLoop month day fetch ys acc
      (r.1, y :: r.2)
    | Except.ok items =>
      let p := processAlbums month day items
      let acc2 := acc ++ p.1
      if p.2 = true ∧ 5 < acc2.length then (acc2, [y])
      else
        let r := spotifyLoop month day fetch ys acc2
        (r.1, y :: r.2)

/-- `get_spotify_releases(month, day, sp_client)` together with the trace of
years whose search query was issued. -/
def spotifySearchRun (month day : Nat) (fetch : Int → Except Unit (List AlbumRecord))
    (current_year : Int) (rand : Nat → Nat) : List AlbumRecord × List Int :=
  spotifyLoop month day fetch (randomSample rand (years_to_search current_year) 10) []

/-- `get_spotify_releases(month, day, sp_client)` (lines 27-66). -/
def get_spotify_releases (month day : Nat) (fetch : Int → Except Unit (List AlbumRecord))
    (current_year : Int) (rand : Nat → Nat) : List AlbumRecord :=
  (spotifySearchRun month day fetch current_year rand).1

/-- Contribution of one year to `movies` in `get_movie_recommendations`:
nothing on a `RequestException`, nothing when `data.get("results")` is
absent or empty, otherwise the `results` list. -/
def movieYearResults (fetch : Int → Except Unit (Option (List MovieRecord))) (y : Int) :
    List MovieRecord :=
  match fetch y with
  | Except.error _ => []
  | Except.ok none => []
  | Except.ok (some rs) => if rs.isEmpty then [] else rs

/-- The `for year in range(current_year, current_year - 20, -1)` loop of
`get_movie_recommendations` (lines 80-94), with the trace of years whose
request was issued. -/
def movieLoop (fetch : Int → Except Unit (Option (List MovieRecord))) :
    List Int → List MovieRecord → List MovieRecord × List Int
  | [], acc => (acc, [])
  | y :: ys, acc =>
    let r := movieLoop fetch ys (acc ++ movieYearResults fetch y)
    (r.1, y :: r.2)

/-- Result of one invocation of `get_movie_recommendations`: the returned
list, the trace of years queried over the network, and whether the
`st.error` message for a missing API key was displayed. -/
structure MovieCallResult where
  movies : List MovieRecord
  queried : List Int
  errorShown : Bool
deriving Repr, DecidableEq

/-- `get_movie_recommendations(month, day, api_key)` (lines 68-96).  With an
empty key it displays an error and returns the empty list (`return []`);
otherwise it aggregates the discovery results over the 20-year range.
`month` and `day` select the exact-date filter of each request, which the
oracle `fetch` models per year. -/
def get_movie_recommendations (month day : Nat) (api_key : String) (current_year : Int)
    (fetch : Int → Except Unit (Option (List MovieRecord))) : MovieCallResult :=
  if api_key = "" then { movies := [], queried := [], errorShown := true }
  else
    let r := movieLoop fetch (pyRangeDown current_year (current_year - 20)) []
    { movies := r.1, queried := r.2, errorShown := false }

/-- What a result section of the page renders: either the post-processed
records, or the informational "nothing found" message. -/
inductive SectionView (α : Type) where
  | results : List α → SectionView α
  | noResults : SectionView α
deriving Repr, DecidableEq

/-- One step of the dict comprehension `{x['id']: x for x in xs}`: an
already-present key keeps its slot but its value is overwritten, a new key
is appended. -/
def dictInsert {α κ : Type} [DecidableEq κ] (key : α → κ) (D : List (κ × α)) (a : α) :
    List (κ × α) :=
  if D.any (fun p => p.1 = key a) then
    D.map (fun p => if p.1 = key a then (p.1, a) else p)
  else D ++ [(key a, a)]

/-- The dict built by `{x['id']: x for x in xs}` in insertion-slot order. -/
def dictOfList {α κ : Type} [DecidableEq κ] (key : α → κ) (l : List α) : List (κ × α) :=
  l.foldl (dictInsert key) []

/-- `{x['id']: x for x in xs}.values()` (lines 141 and 164). -/
def dedupByKey {α κ : Type} [DecidableEq κ] (key : α → κ) (l : List α) : List α :=
  (dictOfList key l).map Prod.snd

/-- Lexicographic comparison of character lists by code point, the order
Python uses to compare strings. -/
def charListLe : List Char → List Char → Bool
  | [], _ => true
  | _ :: _, [] => false
  | a :: as, b :: bs =>
    if a.toNat < b.toNat then true
    else if a.toNat = b.toNat then charListLe as bs
    else false

/-- Python string `<=`. -/
def strLe (a b : String) : Bool := charListLe a.data b.data

/-- Sort order of the album section (line 142): `release_date` descending.
`sorted(..., key=..., reverse=True)` is a stable sort, and
`List.insertionSort` of a total preorder is stable, so the two agree. -/
def albumRel (a b : AlbumRecord) : Prop := strLe b.release_date a.release_date = true

instance : DecidableRel albumRel := fun a b =>
  inferInstanceAs (Decidable (strLe b.release_date a.release_date = true))

/-- `movie.get('vote_average', 0)` (line 165). -/
def movieVoteKey (m : MovieRecord) : ℚ := m.vote_average.getD 0

/-- Sort order of the movie section (line 165): `vote_average` descending. -/
def movieRel (a b : MovieRecord) : Prop := movieVoteKey b ≤ movieVoteKey a

instance : DecidableRel movieRel := fun a b =>
  inferInstanceAs (Decidable (movieVoteKey b ≤ movieVoteKey a))

/-- Presenter post-processing of the album section (lines 141-144):
dedup by `id`, stable sort by `release_date` descending, first 5. -/
def presentAlbums (albums : List AlbumRecord) : List AlbumRecord :=
  (List.insertionSort albumRel (dedupByKey AlbumRecord.id albums)).take 5

/-- Presenter post-processing of the movie section (lines 164-167):
dedup by `id`, stable sort by `vote_average` descending, first 5. -/
def presentMovies (movies : List MovieRecord) : List MovieRecord :=
  (List.insertionSort movieRel (dedupByKey MovieRecord.id movies)).take 5

/-- The movie column of the Presenter (lines 161-174): a non-empty finder
result renders the post-processed list, an empty one renders the
informational "nothing found" message. -/
def movieSection (movies : List MovieRecord) : SectionView MovieRecord :=
  if movies.isEmpty then SectionView.noResults else SectionView.results (presentMovies movies)

/-- Modelled from the spec: the process-wide memo table behind
`st.cache_data` (Streamlit library code, not part of src/), spec section 4.4:
key = (month, day[, client identity]), value = the stored result list,
never invalidated. -/
structure CacheState (κ α : Type) where
  entries : List (κ × α)
deriving Repr, DecidableEq

/-- Modelled from the spec: cache lookup by key equality. -/
def cacheLookup {κ α : Type} [DecidableEq κ] (st : CacheState κ α) (k : κ) : Option α :=
  (st.entries.find? (fun p => p.1 = k)).map Prod.snd

/-- Modelled from the spec: one `st.cache_data`-wrapped invocation.  `f k`
returns the computed value together with the number of network calls the
real computation issues; on a cache hit the stored value is returned and no
network call happens. -/
def cachedCall {κ α : Type} [DecidableEq κ] (f : κ → α × Nat) (st : CacheState κ α) (k : κ) :
    α × Nat × CacheState κ α :=
  match cacheLookup st k with
  | some v => (v, 0, st)
  | none =>
    let r := f k
    (r.1, r.2, ⟨st.entries ++ [(k, r.1)]⟩)

/-- The uncached body of `get_spotify_releases` keyed by
(month, day, client identity), paired with its network call count (one call
per queried year). -/
def spotifyRaw (clients : Nat → Int → Except Unit (List AlbumRecord)) (current_year : Int)
    (rand : Nat → Nat) (k : Nat × Nat × Nat) : List AlbumRecord × Nat :=
  let r := spotifySearchRun k.1 k.2.1 (clients k.2.2) current_year rand
  (r.1, r.2.length)

/-- `@st.cache_data`-wrapped `get_spotify_releases`. -/
def cached_get_spotify (clients : Nat → Int → Except Unit (List AlbumRecord))
    (current_year : Int) (rand : Nat → Nat)
    (st : CacheState (Nat × Nat × Nat) (List AlbumRecord)) (month day clientId : Nat) :
    List AlbumRecord × Nat × CacheState (Nat × Nat × Nat) (List AlbumRecord) :=
  cachedCall (spotifyRaw clients current_year rand) st (month, day, clientId)

/-- The uncached body of `get_movie_recommendations` keyed by
(month, day, api_key), paired with its network call count. -/
def movieRaw (current_year : Int) (fetch : Int → Except Unit (Option (List MovieRecord)))
    (k : Nat × Nat × String) : List MovieRecord × Nat :=
  let r := get_movie_recommendations k.1 k.2.1 k.2.2 current_year fetch
  (r.movies, r.queried.length)

/-- `@st.cache_data`-wrapped `get_movie_recommendations`. -/
def cached_get_movies (current_year : Int)
    (fetch : Int → Except Unit (Option (List MovieRecord)))
    (st : CacheState (Nat × Nat × String) (List MovieRecord)) (month day : Nat)
    (api_key : String) :
    List MovieRecord × Nat × CacheState (Nat × Nat × String) (List MovieRecord) :=
  cachedCall (movieRaw current_year fetch) st (month, day, api_key)

/-- A day-precision album fixture. -/
def mkAlbum (i date : String) : AlbumRecord :=
  { id := i, name := "", artists := [], release_date := date,
    release_date_precision := "day", images := [], external_url := "" }

/-- A deterministic random source: every draw picks the first remaining
element. -/
def rand0 : Nat → Nat := fun _ => 0

/-- Album fixture of the Presenter dedup/sort example. -/
def albA : AlbumRecord := mkAlbum "a" "2012-03-01"

/-- Album fixture of the Presenter dedup/sort example. -/
def albB : AlbumRecord := mkAlbum "b" "2015-03-01"

/-- The rational 7.2 (= 36/5). -/
def q72 : ℚ := Rat.mk' 36 5 (by decide) (by decide)

/-- The rational 9.0. -/
def q90 : ℚ := Rat.mk' 9 1 (by decide) (by decide)

/-- Movie fixture of the Presenter sort example. -/
def movA : MovieRecord :=
  { id := 1, title := "", release_date := "", vote_average := some q72, poster_path := none }

/-- Movie fixture of the Presenter sort example. -/
def movB : MovieRecord :=
  { id := 2, title := "", release_date := "", vote_average := some q90, poster_path := none }

/-- Six matching albums for one year, to trigger the `> 5` early stop. -/
def sixAlbums : List AlbumRecord :=
  [mkAlbum "s1" "2003-03-01", mkAlbum "s2" "2003-03-01", mkAlbum "s3" "2003-03-01",
   mkAlbum "s4" "2003-03-01", mkAlbum "s5" "2003-03-01", mkAlbum "s6" "2003-03-01"]

/-- A matching album of year 2002. -/
def alb2002 : AlbumRecord := mkAlbum "c" "2002-03-01"

/-- Music client stub for the error-handling scenario: the query for 2004
raises, 2003 returns six matches, 2002 returns one match. -/
def fetchC4 : Int → Except Unit (List AlbumRecord) := fun y =>
  if y = 2004 then Except.error ()
  else if y = 2003 then Except.ok sixAlbums
  else if y = 2002 then Except.ok [alb2002]
  else Except.ok []

/-- Music client stub with a single matching album in year 2002. -/
def fetchW : Int → Except Unit (List AlbumRecord) := fun y =>
  if y = 2002 then Except.ok [mkAlbum "w1" "2002-03-01"] else Except.ok []

/-- A matching album of year 2004, appended before the malformed record. -/
def alb2004a : AlbumRecord := mkAlbum "g1" "2004-03-01"

/-- A well-formed album of year 2004 that does not match March 1. -/
def albNon : AlbumRecord := mkAlbum "g2" "2004-05-06"

/-- An album with day precision whose release date does not parse. -/
def albBadDate : AlbumRecord := mkAlbum "bad" "2004-99-99"

/-- A matching album listed after the malformed record of its year. -/
def albAfterBad : AlbumRecord := mkAlbum "g3" "2004-03-01"

/-- A matching album of year 2003. -/
def alb2003w : AlbumRecord := mkAlbum "n1" "2003-03-01"

/-- Music client stub whose year 2004 holds a malformed release date in the
middle of the response. -/
def fetch10 : Int → Except Unit (List AlbumRecord) := fun y =>
  if y = 2004 then Except.ok [alb2004a, albNon, albBadDate, albAfterBad]
  else if y = 2003 then Except.ok [alb2003w]
  else Except.ok []

/-- Movie oracle that always returns one record. -/
def fetchNonEmpty : Int → Except Unit (Option (List MovieRecord)) := fun _ =>
  Except.ok (some [movA])

/-- Movie oracle that fails on year 2024 and returns one record otherwise. -/
def fetchMErr : Int → Except Unit (Option (List MovieRecord)) := fun y =>
  if y = 2024 then Except.error () else Except.ok (some [movA])

example : randomSample rand0 (years_to_search 2005) 10 = [2004, 2003, 2002, 2001] := by decide
example : get_spotify_releases 3 1 fetchC4 2005 rand0 = sixAlbums := by decide
example : (spotifySearchRun 3 1 fetchC4 2005 rand0).2 = [2004, 2003] := by decide
example : presentAlbums [albA, albA, albB] = [albB, albA] := by decide
example : presentMovies [movA, movB] = [movB, movA] := by decide
example : parseYMD "2012-03-01" = some (2012, 3, 1) := by decide
example : parseYMD "2012-13-01" = none := by decide
example : parseYMD "2012-02-30" = none := by decide

theorem mem_pyRangeDown {s t y : Int} : y ∈ pyRangeDown s t ↔ t < y ∧ y ≤ s := by
  simp only [pyRangeDown, List.mem_map, List.mem_range]
  constructor
  · rintro ⟨i, hi, rfl⟩
    omega
  · rintro ⟨h1, h2⟩
    exact ⟨(s - y).toNat, by omega, by omega⟩

theorem length_pyRangeDown (s t : Int) : (pyRangeDown s t).length = (s - t).toNat := by
  simp [pyRangeDown]

theorem nodup_pyRangeDown (s t : Int) : (pyRangeDown s t).Nodup := by
  unfold pyRangeDown
  refine List.Nodup.map ?_ (List.nodup_range _)
  intro i j h
  have h2 : s - (i : Int) = s - (j : Int) := h
  omega

theorem sampleAux_length (rand : Nat → Nat) :
    ∀ (k i : Nat) (pop : List Int), (sampleAux rand i k pop).length = min k pop.length := by
  intro k
  induction k with
  | zero => intro i pop; simp [sampleAux]
  | succ k ih =>
    intro i pop
    rw [sampleAux]
    split
    · rename_i h; simp [h]
    · rename_i h
      have hj : rand i % pop.length < pop.length := Nat.mod_lt _ (Nat.pos_of_ne_zero h)
      simp only [List.length_cons, ih, List.length_eraseIdx, if_pos hj]
      omega

theorem sampleAux_subset (rand : Nat → Nat) :
    ∀ (k i : Nat) (pop : List Int) (a : Int), a ∈ sampleAux rand i k pop → a ∈ pop := by
  intro k
  induction k with
  | zero => intro i pop a h; simp [sampleAux] at h
  | succ k ih =>
    intro i pop a h
    rw [sampleAux] at h
    split at h
    · simp at h
    · rename_i hp
      have hj : rand i % pop.length < pop.length := Nat.mod_lt _ (Nat.pos_of_ne_zero hp)
      rcases List.mem_cons.mp h with h | h
      · rw [h, List.getD_eq_getElem pop 0 hj]
        exact List.getElem_mem hj
      · exact (List.eraseIdx_sublist pop _).subset (ih _ _ _ h)

theorem sampleAux_nodup (rand : Nat → Nat) :
    ∀ (k i : Nat) (pop : List Int), pop.Nodup → (sampleAux rand i k pop).Nodup := by
  intro k
  induction k with
  | zero => intro i pop hp; simp [sampleAux]
  | succ k ih =>
    intro i pop hp
    rw [sampleAux]
    split
    · simp
    · rename_i h
      have hj : rand i % pop.length < pop.length := Nat.mod_lt _ (Nat.pos_of_ne_zero h)
      refine List.nodup_cons.mpr ⟨?_, ih _ _ (hp.eraseIdx _)⟩
      intro hmem
      have hmem2 : pop.getD (rand i % pop.length) 0 ∈ pop.eraseIdx (rand i % pop.length) :=
        sampleAux_subset rand _ _ _ _ hmem
      rw [List.getD_eq_getElem pop 0 hj] at hmem2
      rcases List.mem_eraseIdx_iff_getElem.mp hmem2 with ⟨i2, hi2, hne, heq⟩
      exact hne (hp.getElem_inj_iff.mp heq)

theorem randomSample_length (rand : Nat → Nat) (pop : List Int) (k : Nat) :
    (randomSample rand pop k).length = min pop.length k := by
  rw [randomSample, sampleAux_length]
  omega

theorem randomSample_subset (rand : Nat → Nat) (pop : List Int) (k : Nat) :
    ∀ a ∈ randomSample rand pop k, a ∈ pop := by
  intro a h
  exact sampleAux_subset rand _ _ _ _ h

theorem randomSample_nodup (rand : Nat → Nat) (pop : List Int) (k : Nat) (hp : pop.Nodup) :
    (randomSample rand pop k).Nodup :=
  sampleAux_nodup rand _ _ _ hp

theorem randomSample_perm_of_le (rand : Nat → Nat) (pop : List Int) (k : Nat)
    (hp : pop.Nodup) (hk : pop.length ≤ k) : (randomSample rand pop k).Perm pop := by
  have hsub : (randomSample rand pop k).Subperm pop :=
    List.subperm_of_subset (randomSample_nodup rand pop k hp)
      (randomSample_subset rand pop k)
  refine hsub.perm_of_length_le ?_
  rw [randomSample_length]
  omega

/-- C5: the year sampler used by the K-Pop finder yields at most 10
pairwise-distinct years, each in the inclusive range
[2001, current year − 1]; when the range holds fewer than 10 years the whole
range is returned, and an empty range yields the empty list. -/
theorem spec_C5_year_sampler (rand : Nat → Nat) (cy : Int) :
    (randomSample rand (years_to_search cy) 10).Nodup
    ∧ (randomSample rand (years_to_search cy) 10).length ≤ 10
    ∧ (∀ y ∈ randomSample rand (years_to_search cy) 10, 2001 ≤ y ∧ y ≤ cy - 1)
    ∧ ((years_to_search cy).length < 10 →
        ∀ y : Int, 2001 ≤ y → y ≤ cy - 1 →
          y ∈ randomSample rand (years_to_search cy) 10)
    ∧ (cy ≤ 2001 → randomSample rand (years_to_search cy) 10 = []) := by
  refine ⟨randomSample_nodup rand _ _ (nodup_pyRangeDown _ _), ?_, ?_, ?_, ?_⟩
  · rw [randomSample_length]
    omega
  · intro y hy
    have h := randomSample_subset rand _ _ y hy
    rw [years_to_search] at h
    have h2 := mem_pyRangeDown.mp h
    omega
  · intro hlen y h1 h2
    have hperm := randomSample_perm_of_le rand (years_to_search cy) 10
      (nodup_pyRangeDown _ _) (Nat.le_of_lt hlen)
    refine hperm.mem_iff.mpr ?_
    rw [years_to_search, mem_pyRangeDown]
    omega
  · intro h
    have hnil : years_to_search cy = [] := by
      refine List.eq_nil_of_length_eq_zero ?_
      rw [years_to_search, length_pyRangeDown]
      omega
    rw [hnil, randomSample]
    simp [sampleAux]

/-- Witness for `spec_C5_year_sampler` at concrete inputs. -/
theorem spec_C5_witness :
    (2001 ≤ (2004 : Int) ∧ (2004 : Int) ≤ 2005 - 1)
    ∧ (2003 : Int) ∈ randomSample rand0 (years_to_search 2005) 10
    ∧ randomSample rand0 (years_to_search 2000) 10 = [] := by
  refine ⟨?_, ?_, ?_⟩
  · exact (spec_C5_year_sampler rand0 2005).2.2.1 2004 (by decide)
  · exact (spec_C5_year_sampler rand0 2005).2.2.2.1 (by decide) 2003 (by decide) (by decide)
  · exact (spec_C5_year_sampler rand0 2000).2.2.2.2 (by decide)

theorem processAlbums_mem {month day : Nat} :
    ∀ (items : List AlbumRecord) (a : AlbumRecord), a ∈ (processAlbums month day items).1 →
      a.release_date_precision = "day" ∧ ∃ y, parseYMD a.release_date = some (y, month, day) := by
  intro items
  induction items with
  | nil => intro a h; simp [processAlbums] at h
  | cons b rest ih =>
    intro a h
    by_cases hb : b.release_date_precision = "day"
    · simp only [processAlbums, if_pos hb] at h
      cases hp : parseYMD b.release_date with
      | none => rw [hp] at h; simp at h
      | some v =>
        obtain ⟨y, m, d⟩ := v
        rw [hp] at h
        by_cases hmd : m = month ∧ d = day
        · simp only [if_pos hmd] at h
          rcases List.mem_cons.mp h with rfl | h2
          · exact ⟨hb, y, by rw [hp, hmd.1, hmd.2]⟩
          · exact ih a h2
        · simp only [if_neg hmd] at h
          exact ih a h
    · simp only [processAlbums, if_neg hb] at h
      exact ih a h

theorem processAlbums_ok_mem {month day : Nat} :
    ∀ (items : List AlbumRecord) (a : AlbumRecord) (yy : Nat),
      (processAlbums month day items).2 = true → a ∈ items →
      a.release_date_precision = "day" → parseYMD a.release_date = some (yy, month, day) →
      a ∈ (processAlbums month day items).1 := by
  intro items
  induction items with
  | nil => intro a yy hok ha; simp at ha
  | cons b rest ih =>
    intro a yy hok ha hprec hparse
    by_cases hb : b.release_date_precision = "day"
    · simp only [processAlbums, if_pos hb] at hok ⊢
      cases hp : parseYMD b.release_date with
      | none => rw [hp] at hok; simp at hok
      | some v =>
        obtain ⟨y, m, d⟩ := v
        rw [hp] at hok
        by_cases hmd : m = month ∧ d = day
        · simp only [if_pos hmd] at hok ⊢
          rcases List.mem_cons.mp ha with rfl | h2
          · exact List.mem_cons_self _ _
          · exact List.mem_cons_of_mem _ (ih a yy hok h2 hprec hparse)
        · simp only [if_neg hmd] at hok ⊢
          rcases List.mem_cons.mp ha with rfl | h2
          · rw [hp] at hparse
            cases hparse
            exact absurd ⟨rfl, rfl⟩ hmd
          · exact ih a yy hok h2 hprec hparse
    · simp only [processAlbums, if_neg hb] at hok ⊢
      rcases List.mem_cons.mp ha with rfl | h2
      · exact absurd hprec hb
      · exact ih a yy hok h2 hprec hparse

theorem processAlbums_ok {month day : Nat} :
    ∀ items : List AlbumRecord,
      (∀ a ∈ items, a.release_date_precision = "day" → (parseYMD a.release_date).isSome = true) →
      (processAlbums month day items).2 = true := by
  intro items
  induction items with
  | nil => intro h; simp [processAlbums]
  | cons b rest ih =>
    intro h
    by_cases hb : b.release_date_precision = "day"
    · simp only [processAlbums, if_pos hb]
      cases hp : parseYMD b.release_date with
      | none =>
        have := h b (List.mem_cons_self _ _) hb
        rw [hp] at this
        simp at this
      | some v =>
        obtain ⟨y, m, d⟩ := v
        have hrest := ih (fun a ha => h a (List.mem_cons_of_mem _ ha))
        by_cases hmd : m = month ∧ d = day
        · simp only [if_pos hmd]
          exact hrest
        · simp only [if_neg hmd]
          exact hrest
    · simp only [processAlbums, if_neg hb]
      exact ih (fun a ha => h a (List.mem_cons_of_mem _ ha))

theorem processAlbums_append (month day : Nat) (l1 l2 : List AlbumRecord) :
    processAlbums month day (l1 ++ l2) =
      if (processAlbums month day l1).2 = true then
        ((processAlbums month day l1).1 ++ (processAlbums month day l2).1,
         (processAlbums month day l2).2)
      else processAlbums month day l1 := by
  induction l1 with
  | nil => simp [processAlbums]
  | cons b rest ih =>
    have hcons : (b :: rest) ++ l2 = b :: (rest ++ l2) := rfl
    rw [hcons]
    by_cases hb : b.release_date_precision = "day"
    · simp only [processAlbums, if_pos hb]
      cases hp : parseYMD b.release_date with
      | none => simp
      | some v =>
        obtain ⟨y, m, d⟩ := v
        by_cases hmd : m = month ∧ d = day
        · simp only [if_pos hmd, ih]
          by_cases hc : (processAlbums month day rest).2 = true
          · simp [hc]
          · simp [hc]
        · simp only [if_neg hmd]
          exact ih
    · simp only [processAlbums, if_neg hb]
      exact ih

theorem spotifyLoop_error (month day : Nat) (fetch : Int → Except Unit (List AlbumRecord))
    (y : Int) (ys : List Int) (acc : List AlbumRecord) (h : fetch y = Except.error ()) :
    spotifyLoop month day fetch (y :: ys) acc =
      ((spotifyLoop month day fetch ys acc).1, y :: (spotifyLoop month day fetch ys acc).2) := by
  simp only [spotifyLoop, h]

theorem spotifyLoop_ok (month day : Nat) (fetch : Int → Except Unit (List AlbumRecord))
    (y : Int) (ys : List Int) (acc items : List AlbumRecord) (h : fetch y = Except.ok items) :
    spotifyLoop month day fetch (y :: ys) acc =
      if (processAlbums month day items).2 = true
          ∧ 5 < (acc ++ (processAlbums month day items).1).length then
        (acc ++ (processAlbums month day items).1, [y])
      else
        ((spotifyLoop month day fetch ys (acc ++ (processAlbums month day items).1)).1,
         y :: (spotifyLoop month day fetch ys (acc ++ (processAlbums month day items).1)).2) := by
  simp only [spotifyLoop, h]

theorem spotifyLoop_mem (month day : Nat) (fetch : Int → Except Unit (List AlbumRecord)) :
    ∀ (ys : List Int) (acc : List AlbumRecord) (a : AlbumRecord),
      (∀ b ∈ acc, b.release_date_precision = "day"
        ∧ ∃ y, parseYMD b.release_date = some (y, month, day)) →
      a ∈ (spotifyLoop month day fetch ys acc).1 →
      a.release_date_precision = "day" ∧ ∃ y, parseYMD a.release_date = some (y, month, day) := by
  intro ys
  induction ys with
  | nil =>
    intro acc a hacc h
    exact hacc a (by simpa [spotifyLoop] using h)
  | cons y ys ih =>
    intro acc a hacc h
    cases hf : fetch y with
    | error e =>
      cases e
      rw [spotifyLoop_error month day fetch y ys acc hf] at h
      exact ih acc a hacc h
    | ok items =>
      rw [spotifyLoop_ok month day fetch y ys acc items hf] at h
      have haccp : ∀ b ∈ acc ++ (processAlbums month day items).1,
          b.release_date_precision = "day"
          ∧ ∃ y2, parseYMD b.release_date = some (y2, month, day) := by
        intro b hb
        rcases List.mem_append.mp hb with hb | hb
        · exact hacc b hb
        · exact processAlbums_mem items b hb
      by_cases hc : (processAlbums month day items).2 = true
          ∧ 5 < (acc ++ (processAlbums month day items).1).length
      · rw [if_pos hc] at h
        exact haccp a h
      · rw [if_neg hc] at h
        exact ih _ a haccp h

/-- C1: every record returned by the K-Pop finder has
`release_date_precision = "day"` and a release date that parses to the
queried month and day. -/
theorem spec_C1_kpop_filter (month day : Nat) (fetch : Int → Except Unit (List AlbumRecord))
    (current_year : Int) (rand : Nat → Nat) (a : AlbumRecord)
    (ha : a ∈ get_spotify_releases month day fetch current_year rand) :
    a.release_date_precision = "day"
    ∧ ∃ y, parseYMD a.release_date = some (y, month, day) := by
  rw [get_spotify_releases, spotifySearchRun] at ha
  exact spotifyLoop_mem month day fetch _ [] a (by simp) ha

/-- Witness for `spec_C1_kpop_filter` at concrete inputs. -/
theorem spec_C1_witness :
    mkAlbum "w1" "2002-03-01" ∈ get_spotify_releases 3 1 fetchW 2003 rand0
    ∧ ((mkAlbum "w1" "2002-03-01").release_date_precision = "day"
       ∧ ∃ y, parseYMD (mkAlbum "w1" "2002-03-01").release_date = some (y, 3, 1)) :=
  ⟨by decide, spec_C1_kpop_filter 3 1 fetchW 2003 rand0 _ (by decide)⟩

/-- C6: the early-termination check of the K-Pop finder runs only at the end
of a fully processed year: if a year's fetch succeeds, its album loop
finishes without an exception, and the accumulator then holds more than 5
records, no further year is queried and the accumulated list is returned
whole (the year is not cut off mid-year: every matching album of that year
is included); the returned list may hold more than 5 records. -/
theorem spec_C6_early_stop :
    (∀ (month day : Nat) (fetch : Int → Except Unit (List AlbumRecord)) (y : Int)
        (ys : List Int) (acc items : List AlbumRecord),
        fetch y = Except.ok items →
        (processAlbums month day items).2 = true →
        5 < (acc ++ (processAlbums month day items).1).length →
        spotifyLoop month day fetch (y :: ys) acc =
          (acc ++ (processAlbums month day items).1, [y]))
    ∧ (∀ (month day : Nat) (items : List AlbumRecord) (a : AlbumRecord) (yy : Nat),
        (processAlbums month day items).2 = true → a ∈ items →
        a.release_date_precision = "day" →
        parseYMD a.release_date = some (yy, month, day) →
        a ∈ (processAlbums month day items).1)
    ∧ (get_spotify_releases 3 1 fetchC4 2005 rand0).length = 6 := by
  refine ⟨?_, ?_, by decide⟩
  · intro month day fetch y ys acc items hf hok hlen
    rw [spotifyLoop_ok month day fetch y ys acc items hf, if_pos ⟨hok, hlen⟩]
  · intro month day items a yy
    exact processAlbums_ok_mem items a yy

/-- Witness for `spec_C6_early_stop` at concrete inputs. -/
theorem spec_C6_witness :
    fetchC4 2003 = Except.ok sixAlbums
    ∧ spotifyLoop 3 1 fetchC4 (2003 :: [2002, 2001]) [] =
        ([] ++ (processAlbums 3 1 sixAlbums).1, [2003])
    ∧ mkAlbum "s1" "2003-03-01" ∈ (processAlbums 3 1 sixAlbums).1 :=
  ⟨by rfl,
   (spec_C6_early_stop).1 3 1 fetchC4 2003 [2002, 2001] [] sixAlbums
     (by rfl) (by decide) (by decide),
   (spec_C6_early_stop).2.1 3 1 sixAlbums (mkAlbum "s1" "2003-03-01") 2003
     (by decide) (by decide) (by decide) (by decide)⟩

/-- C10: a malformed day-precision release date aborts only the rest of its
own year: the matches appended before the bad record are kept, and the loop
continues with the subsequent sampled years (without running the
early-termination check for the aborted year). -/
theorem spec_C10_midyear_parse_abort (month day : Nat)
    (fetch : Int → Except Unit (List AlbumRecord)) (y : Int) (ys : List Int)
    (acc good rest2 : List AlbumRecord) (bad : AlbumRecord)
    (hfetch : fetch y = Except.ok (good ++ bad :: rest2))
    (hgood : ∀ a ∈ good, a.release_date_precision = "day" →
      (parseYMD a.release_date).isSome = true)
    (hbadPrec : bad.release_date_precision = "day")
    (hbadParse : parseYMD bad.release_date = none) :
    spotifyLoop month day fetch (y :: ys) acc =
      ((spotifyLoop month day fetch ys (acc ++ (processAlbums month day good).1)).1,
       y :: (spotifyLoop month day fetch ys (acc ++ (processAlbums month day good).1)).2) := by
  have hjunk : processAlbums month day (bad :: rest2) = ([], false) := by
    simp only [processAlbums, if_pos hbadPrec, hbadParse]
  have hproc : processAlbums month day (good ++ bad :: rest2) =
      ((processAlbums month day good).1, false) := by
    rw [processAlbums_append, if_pos (processAlbums_ok good hgood), hjunk]
    simp
  rw [spotifyLoop_ok month day fetch y ys acc _ hfetch, hproc]
  rw [if_neg (by simp)]

/-- Witness for `spec_C10_midyear_parse_abort` at concrete inputs. -/
theorem spec_C10_witness :
    fetch10 2004 = Except.ok ([alb2004a, albNon] ++ albBadDate :: [albAfterBad])
    ∧ albBadDate.release_date_precision = "day"
    ∧ parseYMD albBadDate.release_date = none
    ∧ spotifyLoop 3 1 fetch10 (2004 :: [2003, 2002, 2001]) [] =
        ((spotifyLoop 3 1 fetch10 [2003, 2002, 2001]
            ([] ++ (processAlbums 3 1 [alb2004a, albNon]).1)).1,
         2004 :: (spotifyLoop 3 1 fetch10 [2003, 2002, 2001]
            ([] ++ (processAlbums 3 1 [alb2004a, albNon]).1)).2) :=
  ⟨by rfl, by decide, by decide,
   spec_C10_midyear_parse_abort 3 1 fetch10 2004 [2003, 2002, 2001] []
     [alb2004a, albNon] [albAfterBad] albBadDate
     (by rfl) (by decide) (by decide) (by decide)⟩

theorem movieLoop_trace (fetch : Int → Except Unit (Option (List MovieRecord))) :
    ∀ (ys : List Int) (acc : List MovieRecord), (movieLoop fetch ys acc).2 = ys := by
  intro ys
  induction ys with
  | nil => intro acc; rfl
  | cons y ys ih =>
    intro acc
    simp only [movieLoop, ih]

theorem movieLoop_result (fetch : Int → Except Unit (Option (List MovieRecord))) :
    ∀ (ys : List Int) (acc : List MovieRecord),
      (movieLoop fetch ys acc).1 = acc ++ (ys.map (movieYearResults fetch)).flatten := by
  intro ys
  induction ys with
  | nil => intro acc; simp [movieLoop]
  | cons y ys ih =>
    intro acc
    simp only [movieLoop, ih, List.map_cons, List.flatten_cons, List.append_assoc]

/-- C2: with a non-empty API key the movie finder issues exactly one
discovery query for each of the 20 years from the current year down to
current year − 19, in that order, regardless of the per-year outcomes. -/
theorem spec_C2_movie_twenty_years (month day : Nat) (api_key : String) (current_year : Int)
    (fetch : Int → Except Unit (Option (List MovieRecord))) (hkey : api_key ≠ "") :
    (get_movie_recommendations month day api_key current_year fetch).queried =
        (List.range 20).map (fun (i : Nat) => current_year - (i : Int))
    ∧ (get_movie_recommendations month day api_key current_year fetch).queried.length = 20
    ∧ (get_movie_recommendations month day api_key current_year fetch).queried.Nodup := by
  have h1 : (get_movie_recommendations month day api_key current_year fetch).queried =
      pyRangeDown current_year (current_year - 20) := by
    simp only [get_movie_recommendations, if_neg hkey]
    exact movieLoop_trace fetch _ _
  have h3 : (current_year - (current_year - 20)).toNat = 20 := by omega
  have h2 : pyRangeDown current_year (current_year - 20) =
      (List.range 20).map (fun (i : Nat) => current_year - (i : Int)) := by
    rw [pyRangeDown, h3]
  refine ⟨h1.trans h2, ?_, ?_⟩
  · rw [h1, length_pyRangeDown]
    omega
  · rw [h1]
    exact nodup_pyRangeDown _ _

/-- Witness for `spec_C2_movie_twenty_years` at concrete inputs. -/
theorem spec_C2_witness :
    ("k" : String) ≠ ""
    ∧ (get_movie_recommendations 3 1 "k" 2025 (fun _ => Except.ok none)).queried =
        (List.range 20).map (fun (i : Nat) => (2025 : Int) - (i : Int)) :=
  ⟨by decide, (spec_C2_movie_twenty_years 3 1 "k" 2025 (fun _ => Except.ok none) (by decide)).1⟩

/-- C3 counterexample: with an empty API key the movie finder does not fail
the whole request with a hard stop; it returns the empty list normally
(after displaying the error message and issuing zero network calls), and
the Presenter renders the ordinary empty-result view — the very state the
claim says is avoided — even though the server would have returned
records. -/
theorem spec_C3_counterexample :
    get_movie_recommendations 3 1 "" 2025 fetchNonEmpty =
      { movies := [], queried := [], errorShown := true }
    ∧ movieSection (get_movie_recommendations 3 1 "" 2025 fetchNonEmpty).movies =
        SectionView.noResults := by
  exact ⟨rfl, rfl⟩

/-- C3 (amended): with an empty API key the movie finder displays the
configuration error message, issues zero network calls and returns the
empty list; control returns normally and the Presenter then renders the
ordinary empty-result message (no exception, no hard stop). -/
theorem spec_C3_empty_key (month day : Nat) (current_year : Int)
    (fetch : Int → Except Unit (Option (List MovieRecord))) :
    get_movie_recommendations month day "" current_year fetch =
      { movies := [], queried := [], errorShown := true }
    ∧ movieSection (get_movie_recommendations month day "" current_year fetch).movies =
        SectionView.noResults := by
  have h : get_movie_recommendations month day "" current_year fetch =
      { movies := [], queried := [], errorShown := true } := by
    rw [get_movie_recommendations, if_pos rfl]
  exact ⟨h, by rw [h]; rfl⟩

theorem spotifyLoop_skip_error (month day : Nat)
    (fetch : Int → Except Unit (List AlbumRecord)) (y : Int)
    (hy : fetch y = Except.error ()) :
    ∀ (ys1 ys2 : List Int) (acc : List AlbumRecord),
      (spotifyLoop month day fetch (ys1 ++ y :: ys2) acc).1 =
        (spotifyLoop month day fetch (ys1 ++ ys2) acc).1 := by
  intro ys1
  induction ys1 with
  | nil =>
    intro ys2 acc
    rw [List.nil_append, List.nil_append, spotifyLoop_error month day fetch y ys2 acc hy]
  | cons z zs ih =>
    intro ys2 acc
    have hz1 : (z :: zs) ++ y :: ys2 = z :: (zs ++ y :: ys2) := rfl
    have hz2 : (z :: zs) ++ ys2 = z :: (zs ++ ys2) := rfl
    rw [hz1, hz2]
    cases hf : fetch z with
    | error e =>
      cases e
      rw [spotifyLoop_error month day fetch z _ acc hf,
        spotifyLoop_error month day fetch z _ acc hf]
      exact ih ys2 acc
    | ok items =>
      rw [spotifyLoop_ok month day fetch z _ acc items hf,
        spotifyLoop_ok month day fetch z _ acc items hf]
      by_cases hc : (processAlbums month day items).2 = true
          ∧ 5 < (acc ++ (processAlbums month day items).1).length
      · rw [if_pos hc, if_pos hc]
      · rw [if_neg hc, if_neg hc]
        exact ih ys2 _

/-- C4 (amended): a year whose external query raises is swallowed and
skipped — each finder continues exactly as if that year were absent from
its year list, and neither finder ever raises; the movie finder's output is
the concatenation of the results of all its non-failing years, while for
the K-Pop finder the skip holds relative to the early-termination rule
(a later non-failing year's matches may be absent when the `> 5` stop
triggers first). -/
theorem spec_C4_error_skip :
    (∀ (month day : Nat) (fetch : Int → Except Unit (List AlbumRecord)) (y : Int)
        (ys1 ys2 : List Int) (acc : List AlbumRecord), fetch y = Except.error () →
        (spotifyLoop month day fetch (ys1 ++ y :: ys2) acc).1 =
          (spotifyLoop month day fetch (ys1 ++ ys2) acc).1)
    ∧ (∀ (fetch : Int → Except Unit (Option (List MovieRecord))) (y : Int)
        (ys1 ys2 : List Int) (acc : List MovieRecord), fetch y = Except.error () →
        (movieLoop fetch (ys1 ++ y :: ys2) acc).1 = (movieLoop fetch (ys1 ++ ys2) acc).1)
    ∧ (∀ (fetch : Int → Except Unit (Option (List MovieRecord))) (ys : List Int)
        (acc : List MovieRecord),
        (movieLoop fetch ys acc).1 = acc ++ (ys.map (movieYearResults fetch)).flatten) := by
  refine ⟨?_, ?_, movieLoop_result⟩
  · intro month day fetch y ys1 ys2 acc hy
    exact spotifyLoop_skip_error month day fetch y hy ys1 ys2 acc
  · intro fetch y ys1 ys2 acc hy
    rw [movieLoop_result, movieLoop_result]
    have hnil : movieYearResults fetch y = [] := by
      rw [movieYearResults, hy]
    simp [hnil]

/-- C4 counterexample: in the sampled run the query for 2004 raises and is
skipped, 2002 is a non-failing sampled year with a matching record, yet the
K-Pop finder's output does not contain that match (the `> 5` early stop
after 2003 ends the search), refuting "the returned list contains the
matches from all non-failing years". -/
theorem spec_C4_counterexample :
    fetchC4 2004 = Except.error ()
    ∧ fetchC4 2002 = Except.ok [alb2002]
    ∧ alb2002.release_date_precision = "day"
    ∧ parseYMD alb2002.release_date = some (2002, 3, 1)
    ∧ (2002 : Int) ∈ randomSample rand0 (years_to_search 2005) 10
    ∧ alb2002 ∉ get_spotify_releases 3 1 fetchC4 2005 rand0 := by
  refine ⟨by rfl, by rfl, by decide, by decide, by decide, by decide⟩

/-- Witness for `spec_C4_error_skip` at concrete inputs. -/
theorem spec_C4_witness :
    fetchC4 2004 = Except.error ()
    ∧ fetchMErr 2024 = Except.error ()
    ∧ (spotifyLoop 3 1 fetchC4 ([] ++ 2004 :: [2003]) []).1 =
        (spotifyLoop 3 1 fetchC4 ([] ++ [2003]) []).1
    ∧ (movieLoop fetchMErr ([2025] ++ 2024 :: [2023]) []).1 =
        (movieLoop fetchMErr ([2025] ++ [2023]) []).1 :=
  ⟨by rfl, by rfl,
   (spec_C4_error_skip).1 3 1 fetchC4 2004 [] [2003] [] (by rfl),
   (spec_C4_error_skip).2.1 fetchMErr 2024 [2025] [2023] [] (by rfl)⟩

theorem cachedCall_fresh {κ α : Type} [DecidableEq κ] (f : κ → α × Nat)
    (st : CacheState κ α) (k : κ) (h : cacheLookup st k = none) :
    cachedCall f st k = ((f k).1, (f k).2, ⟨st.entries ++ [(k, (f k).1)]⟩) := by
  rw [cachedCall, h]

theorem cacheLookup_append_self {κ α : Type} [DecidableEq κ] (st : CacheState κ α)
    (k : κ) (v : α) (h : cacheLookup st k = none) :
    cacheLookup (⟨st.entries ++ [(k, v)]⟩ : CacheState κ α) k = some v := by
  rw [cacheLookup] at h ⊢
  have h2 : st.entries.find? (fun p => p.1 = k) = none := by
    cases hf : st.entries.find? (fun p => p.1 = k) with
    | none => rfl
    | some p => rw [hf] at h; simp at h
  rw [List.find?_append, h2]
  simp

theorem cachedCall_hit {κ α : Type} [DecidableEq κ] (f : κ → α × Nat)
    (st : CacheState κ α) (k : κ) (v : α) (h : cacheLookup st k = some v) :
    cachedCall f st k = (v, 0, st) := by
  rw [cachedCall, h]

/-- C7 (spec-modelled `st.cache_data`): for each finder, the first call on a
fresh key runs the real computation and issues its network calls, and a
second call with the same (month, day, client/key) returns the stored
result of the first call with zero network calls and an unchanged cache. -/
theorem spec_C7_cache_memoizes (clients : Nat → Int → Except Unit (List AlbumRecord))
    (current_year : Int) (rand : Nat → Nat)
    (stA : CacheState (Nat × Nat × Nat) (List AlbumRecord))
    (stM : CacheState (Nat × Nat × String) (List MovieRecord))
    (fetch : Int → Except Unit (Option (List MovieRecord)))
    (month day clientId : Nat) (api_key : String)
    (hA : cacheLookup stA (month, day, clientId) = none)
    (hM : cacheLookup stM (month, day, api_key) = none) :
    cached_get_spotify clients current_year rand stA month day clientId =
      ((spotifyRaw clients current_year rand (month, day, clientId)).1,
       (spotifyRaw clients current_year rand (month, day, clientId)).2,
       ⟨stA.entries ++ [((month, day, clientId),
          (spotifyRaw clients current_year rand (month, day, clientId)).1)]⟩)
    ∧ cached_get_spotify clients current_year rand
        (cached_get_spotify clients current_year rand stA month day clientId).2.2
        month day clientId =
      ((spotifyRaw clients current_year rand (month, day, clientId)).1, 0,
       (cached_get_spotify clients current_year rand stA month day clientId).2.2)
    ∧ cached_get_movies current_year fetch stM month day api_key =
      ((movieRaw current_year fetch (month, day, api_key)).1,
       (movieRaw current_year fetch (month, day, api_key)).2,
       ⟨stM.entries ++ [((month, day, api_key),
          (movieRaw current_year fetch (month, day, api_key)).1)]⟩)
    ∧ cached_get_movies current_year fetch
        (cached_get_movies current_year fetch stM month day api_key).2.2 month day api_key =
      ((movieRaw current_year fetch (month, day, api_key)).1, 0,
       (cached_get_movies current_year fetch stM month day api_key).2.2) := by
  have e1 : cached_get_spotify clients current_year rand stA month day clientId =
      ((spotifyRaw clients current_year rand (month, day, clientId)).1,
       (spotifyRaw clients current_year rand (month, day, clientId)).2,
       ⟨stA.entries ++ [((month, day, clientId),
          (spotifyRaw clients current_year rand (month, day, clientId)).1)]⟩) := by
    rw [cached_get_spotify, cachedCall_fresh _ _ _ hA]
  have e2 : cached_get_movies current_year fetch stM month day api_key =
      ((movieRaw current_year fetch (month, day, api_key)).1,
       (movieRaw current_year fetch (month, day, api_key)).2,
       ⟨stM.entries ++ [((month, day, api_key),
          (movieRaw current_year fetch (month, day, api_key)).1)]⟩) := by
    rw [cached_get_movies, cachedCall_fresh _ _ _ hM]
  refine ⟨e1, ?_, e2, ?_⟩
  · rw [cached_get_spotify, e1]
    exact cachedCall_hit _ _ _ _ (cacheLookup_append_self stA _ _ hA)
  · rw [cached_get_movies, e2]
    exact cachedCall_hit _ _ _ _ (cacheLookup_append_self stM _ _ hM)

/-- Witness for `spec_C7_cache_memoizes` at concrete inputs. -/
theorem spec_C7_witness :
    cacheLookup (⟨[]⟩ : CacheState (Nat × Nat × Nat) (List AlbumRecord)) (3, 1, 0) = none
    ∧ cacheLookup (⟨[]⟩ : CacheState (Nat × Nat × String) (List MovieRecord)) (3, 1, "k") = none
    ∧ cached_get_spotify (fun _ => fetchW) 2003 rand0
        (cached_get_spotify (fun _ => fetchW) 2003 rand0 ⟨[]⟩ 3 1 0).2.2 3 1 0 =
      ((spotifyRaw (fun _ => fetchW) 2003 rand0 (3, 1, 0)).1, 0,
       (cached_get_spotify (fun _ => fetchW) 2003 rand0 ⟨[]⟩ 3 1 0).2.2) :=
  ⟨rfl, rfl,
   (spec_C7_cache_memoizes (fun _ => fetchW) 2003 rand0 ⟨[]⟩ ⟨[]⟩ fetchNonEmpty
     3 1 0 "k" rfl rfl).2.1⟩

theorem getLast?_cons_or {β : Type} (c : β) (t : List β) :
    (c :: t).getLast? = t.getLast?.or (some c) := by
  cases t with
  | nil => rfl
  | cons d t2 =>
    rw [List.getLast?_cons_cons]
    have h : (d :: t2).getLast?.isSome := by
      rw [List.getLast?_isSome]
      simp
    cases hx : (d :: t2).getLast? with
    | none => rw [hx] at h; simp at h
    | some v => rfl

theorem dictInsert_filter {α κ : Type} [DecidableEq κ] (key : α → κ) (D : List (κ × α))
    (b : α) (G : κ → Option α)
    (hD : ∀ i, D.filter (fun p => p.1 = i) = ((G i).map (fun a => (i, a))).toList) :
    ∀ i, (dictInsert key D b).filter (fun p => p.1 = i) =
      ((if key b = i then some b else G i).map (fun a => (i, a))).toList := by
  intro i
  rw [dictInsert]
  by_cases hmem : D.any (fun q => decide (q.1 = key b)) = true
  · rw [if_pos hmem]
    have hcomp : (D.map (fun p => if p.1 = key b then (p.1, b) else p)).filter
        (fun p => p.1 = i) =
        (D.filter (fun p => p.1 = i)).map (fun p => if p.1 = key b then (p.1, b) else p) := by
      rw [List.filter_map]
      refine congrArg _ (List.filter_congr ?_)
      intro q hq
      by_cases hqb : q.1 = key b
      · simp [Function.comp, hqb]
      · simp [Function.comp, hqb]
    rw [hcomp, hD i]
    by_cases hbi : key b = i
    · rcases List.any_eq_true.mp hmem with ⟨q, hq, hq2⟩
      have hq3 : q.1 = key b := of_decide_eq_true hq2
      have hGi : (G i).isSome := by
        cases hGx : G i with
        | some v => rfl
        | none =>
          have hDi := hD i
          rw [hGx] at hDi
          have hqf : q ∈ D.filter (fun p => p.1 = i) :=
            List.mem_filter.mpr ⟨hq, by simp [hq3, hbi]⟩
          rw [hDi] at hqf
          simp at hqf
      cases hGx : G i with
      | none => rw [hGx] at hGi; simp at hGi
      | some v => simp [hbi]
    · have hib : ¬ i = key b := fun h => hbi h.symm
      cases hGx : G i with
      | none => simp [hbi]
      | some v => simp [hbi, hib]
  · rw [if_neg hmem]
    rw [List.filter_append]
    by_cases hbi : key b = i
    · have hD2 : D.filter (fun p => p.1 = i) = [] := by
        rw [List.filter_eq_nil_iff]
        intro q hq hqi
        apply hmem
        refine List.any_eq_true.mpr ⟨q, hq, ?_⟩
        have hq1 : q.1 = i := of_decide_eq_true hqi
        simp [hq1, hbi]
      rw [hD2, if_pos hbi]
      simp [hbi]
    · have hone : ([((key b, b) : κ × α)]).filter (fun p => p.1 = i) = [] := by
        simp [hbi]
      rw [hone, if_neg hbi, List.append_nil]
      exact hD i

theorem dictFold_filter {α κ : Type} [DecidableEq κ] (key : α → κ) :
    ∀ (l : List α) (D : List (κ × α)) (G : κ → Option α),
      (∀ i, D.filter (fun p => p.1 = i) = ((G i).map (fun a => (i, a))).toList) →
      ∀ i, (l.foldl (dictInsert key) D).filter (fun p => p.1 = i) =
        (((l.filter (fun a => key a = i)).getLast?.or (G i)).map (fun a => (i, a))).toList := by
  intro l
  induction l with
  | nil =>
    intro D G hD i
    simpa using hD i
  | cons b l ih =>
    intro D G hD i
    rw [List.foldl_cons]
    have step := dictInsert_filter key D b G hD
    have ihx := ih (dictInsert key D b) (fun j => if key b = j then some b else G j) step i
    rw [ihx]
    by_cases hbi : key b = i
    · rw [List.filter_cons, if_pos (decide_eq_true hbi), if_pos hbi]
      rw [getLast?_cons_or, Option.or_assoc]
      rfl
    · rw [List.filter_cons, if_neg hbi,
        if_neg (show ¬ decide (key b = i) = true by simp [hbi])]

theorem dictFold_coherent {α κ : Type} [DecidableEq κ] (key : α → κ) :
    ∀ (l : List α) (D : List (κ × α)), (∀ q ∈ D, q.1 = key q.2) →
      ∀ q ∈ l.foldl (dictInsert key) D, q.1 = key q.2 := by
  intro l
  induction l with
  | nil => intro D hD q hq; exact hD q hq
  | cons b l ih =>
    intro D hD q hq
    rw [List.foldl_cons] at hq
    refine ih (dictInsert key D b) ?_ q hq
    intro p hp
    rw [dictInsert] at hp
    by_cases hmem : D.any (fun q2 => decide (q2.1 = key b)) = true
    · rw [if_pos hmem] at hp
      rcases List.mem_map.mp hp with ⟨p0, hp0, rfl⟩
      by_cases hpb : p0.1 = key b
      · simp [hpb]
      · simp only [if_neg hpb]
        exact hD p0 hp0
    · rw [if_neg hmem] at hp
      rcases List.mem_append.mp hp with hp | hp
      · exact hD p hp
      · rcases List.mem_singleton.mp hp with rfl
        rfl

theorem dedupByKey_filter {α κ : Type} [DecidableEq κ] (key : α → κ) (l : List α) (i : κ) :
    (dedupByKey key l).filter (fun a => key a = i) =
      ((l.filter (fun a => key a = i)).getLast?).toList := by
  rw [dedupByKey, dictOfList]
  rw [List.filter_map]
  have hco : ∀ q ∈ l.foldl (dictInsert key) [], q.1 = key q.2 :=
    dictFold_coherent key l [] (by simp)
  have hcongr : (l.foldl (dictInsert key) []).filter (fun q => decide (key q.2 = i)) =
      (l.foldl (dictInsert key) []).filter (fun q => decide (q.1 = i)) := by
    refine List.filter_congr ?_
    intro q hq
    rw [← hco q hq]
  have hmain := dictFold_filter key l [] (fun _ => none) (by simp) i
  rw [Option.or_none] at hmain
  calc ((l.foldl (dictInsert key) []).filter (fun q => decide (key q.2 = i))).map Prod.snd
      = ((l.foldl (dictInsert key) []).filter (fun q => decide (q.1 = i))).map Prod.snd := by
        rw [hcongr]
    _ = (((l.filter (fun a => key a = i)).getLast?.map (fun a => (i, a))).toList).map
          Prod.snd := by rw [hmain]
    _ = ((l.filter (fun a => key a = i)).getLast?).toList := by
        cases (l.filter (fun a => key a = i)).getLast? <;> simp

/-- C9: when several records share an id, the dict-comprehension dedup of
the Presenter keeps the last record carrying that id: for every id, the
deduplicated list's records with that id are exactly the last occurrence of
that id in the raw list (for albums and for movies alike). -/
theorem spec_C9_dedup_keeps_last :
    (∀ (l : List AlbumRecord) (i : String),
      (dedupByKey AlbumRecord.id l).filter (fun a => a.id = i) =
        ((l.filter (fun a => a.id = i)).getLast?).toList)
    ∧ (∀ (l : List MovieRecord) (j : Int),
      (dedupByKey MovieRecord.id l).filter (fun a => a.id = j) =
        ((l.filter (fun a => a.id = j)).getLast?).toList) :=
  ⟨fun l i => dedupByKey_filter AlbumRecord.id l i,
   fun l j => dedupByKey_filter MovieRecord.id l j⟩

theorem charListLe_total : ∀ (a b : List Char),
    charListLe a b = true ∨ charListLe b a = true := by
  intro a
  induction a with
  | nil => intro b; left; rfl
  | cons c as ih =>
    intro b
    cases b with
    | nil => right; rfl
    | cons d bs =>
      by_cases h1 : c.toNat < d.toNat
      · left; simp [charListLe, h1]
      · by_cases h2 : c.toNat = d.toNat
        · rcases ih bs with h | h
          · left; simp [charListLe, h1, h2, h]
          · right; simp [charListLe, h2, h]
        · right
          have h3 : d.toNat < c.toNat := by omega
          simp [charListLe, h3]

theorem charListLe_trans : ∀ (a b c : List Char),
    charListLe a b = true → charListLe b c = true → charListLe a c = true := by
  intro a
  induction a with
  | nil => intro b c h1 h2; rfl
  | cons x as ih =>
    intro b c h1 h2
    cases b with
    | nil => simp [charListLe] at h1
    | cons y bs =>
      cases c with
      | nil => simp [charListLe] at h2
      | cons z cs =>
        simp only [charListLe] at h1 h2 ⊢
        by_cases hxy : x.toNat < y.toNat
        · by_cases hyz : y.toNat < z.toNat
          · have hxz : x.toNat < z.toNat := by omega
            simp [hxz]
          · by_cases hyz2 : y.toNat = z.toNat
            · have hxz : x.toNat < z.toNat := by omega
              simp [hxz]
            · rw [if_neg hyz, if_neg hyz2] at h2
              simp at h2
        · by_cases hxy2 : x.toNat = y.toNat
          · rw [if_neg hxy, if_pos hxy2] at h1
            by_cases hyz : y.toNat < z.toNat
            · have hxz : x.toNat < z.toNat := by omega
              simp [hxz]
            · by_cases hyz2 : y.toNat = z.toNat
              · rw [if_neg hyz, if_pos hyz2] at h2
                have hxz : x.toNat = z.toNat := by omega
                have hlt : ¬ x.toNat < z.toNat := by omega
                rw [if_neg hlt, if_pos hxz]
                exact ih bs cs h1 h2
              · rw [if_neg hyz, if_neg hyz2] at h2
                simp at h2
          · rw [if_neg hxy, if_neg hxy2] at h1
            simp at h1

instance : IsTotal AlbumRecord albumRel :=
  ⟨fun a b => by
    rcases charListLe_total b.release_date.data a.release_date.data with h | h
    · exact Or.inl h
    · exact Or.inr h⟩

instance : IsTrans AlbumRecord albumRel :=
  ⟨fun a b c hab hbc => charListLe_trans _ _ _ hbc hab⟩

instance : IsTotal MovieRecord movieRel :=
  ⟨fun a b => le_total (movieVoteKey b) (movieVoteKey a)⟩

instance : IsTrans MovieRecord movieRel :=
  ⟨fun a b c hab hbc => le_trans hbc hab⟩

theorem filter_length_le_one_pairwise {α κ : Type} [DecidableEq κ] (key : α → κ) :
    ∀ L : List α, (∀ i, (L.filter (fun a => key a = i)).length ≤ 1) →
      L.Pairwise (fun a b => key a ≠ key b) := by
  intro L
  induction L with
  | nil => intro h; exact List.Pairwise.nil
  | cons a L ih =>
    intro h
    refine List.pairwise_cons.mpr ⟨?_, ih ?_⟩
    · intro b hb heq
      have ha := h (key a)
      rw [List.filter_cons, if_pos (by simp)] at ha
      have hbmem : b ∈ L.filter (fun x => key x = key a) :=
        List.mem_filter.mpr ⟨hb, by simp [heq]⟩
      have hlen : (L.filter (fun x => key x = key a)).length = 0 := by
        simp only [List.length_cons] at ha
        omega
      rw [List.length_eq_zero] at hlen
      rw [hlen] at hbmem
      simp at hbmem
    · intro i
      have hi := h i
      rw [List.filter_cons] at hi
      by_cases hk : key a = i
      · rw [if_pos (by simp [hk])] at hi
        simp only [List.length_cons] at hi
        omega
      · rw [if_neg (by simp [hk])] at hi
        exact hi

theorem dedupByKey_id_pairwise {α κ : Type} [DecidableEq κ] (key : α → κ) (l : List α) :
    (dedupByKey key l).Pairwise (fun a b => key a ≠ key b) := by
  refine filter_length_le_one_pairwise key _ ?_
  intro i
  rw [dedupByKey_filter]
  cases (l.filter (fun a => key a = i)).getLast? <;> simp

/-- C8: the Presenter post-processing deduplicates by id, sorts albums by
`release_date` descending and movies by `vote_average` descending, and
truncates to 5; in particular the album example
[{a, 2012-03-01}, {a, 2012-03-01}, {b, 2015-03-01}] yields exactly [b, a]
and the movie example [{1, 7.2}, {2, 9.0}] yields [2, 1]. -/
theorem spec_C8_present_postprocessing :
    presentAlbums [albA, albA, albB] = [albB, albA]
    ∧ presentMovies [movA, movB] = [movB, movA]
    ∧ (∀ l : List AlbumRecord, (presentAlbums l).length ≤ 5
        ∧ (presentAlbums l).Sorted albumRel
        ∧ (presentAlbums l).Pairwise (fun a b => a.id ≠ b.id))
    ∧ (∀ l : List MovieRecord, (presentMovies l).length ≤ 5
        ∧ (presentMovies l).Sorted movieRel
        ∧ (presentMovies l).Pairwise (fun a b => a.id ≠ b.id)) := by
  refine ⟨by decide, by decide, ?_, ?_⟩
  · intro l
    refine ⟨?_, ?_, ?_⟩
    · rw [presentAlbums]
      exact List.length_take_le 5 _
    · exact List.Pairwise.sublist (List.take_sublist 5 _)
        (List.sorted_insertionSort albumRel _)
    · refine List.Pairwise.sublist (List.take_sublist 5 _) ?_
      have hperm := List.perm_insertionSort albumRel (dedupByKey AlbumRecord.id l)
      exact (hperm.pairwise_iff (fun h h2 => h h2.symm)).mpr
        (dedupByKey_id_pairwise AlbumRecord.id l)
  · intro l
    refine ⟨?_, ?_, ?_⟩
    · rw [presentMovies]
      exact List.length_take_le 5 _
    · exact List.Pairwise.sublist (List.take_sublist 5 _)
        (List.sorted_insertionSort movieRel _)
    · refine List.Pairwise.sublist (List.take_sublist 5 _) ?_
      have hperm := List.perm_insertionSort movieRel (dedupByKey MovieRecord.id l)
      exact (hperm.pairwise_iff (fun h h2 => h h2.symm)).mpr
        (dedupByKey_id_pairwise MovieRecord.id l)
